import Mathlib

/-!
Shallow embedding of the window-based validation and reputation-scoring
engine of `neurons/validator.py` (templar validator node).

Floating-point values of the source are modelled as rationals, so every
arithmetic identity below is exact.  Machine-learning externals (forward
passes, the gradient codec, the transport layer) are out of scope of the
specification and enter the model as opaque inputs: measured mean losses
are rational inputs, the decoded dense gradient of a parameter is an
abstract rational, and the in-place parameter mutation performed while a
peer gradient is under evaluation is an opaque function supplied with the
window input.  Everything the claims quantify over — the scoring
formulas, the reputation updates, the weight normalizations, the
snapshot/restore discipline of the window loop — is translated
line-by-line from the source.
-/

namespace Templar

/-- Python's binary `max`, used as `max(…, 0.0)` on line 604 of the
source (spelled out so that concrete states evaluate by `decide`). -/
def maxQ (x y : ℚ) : ℚ := if x < y then y else x

/-- Pointwise update of one entry of a score vector (a single tensor-cell
assignment `v[u] = x` of the source). -/
def updF {n : ℕ} (f : Fin n → ℚ) (u : Fin n) (x : ℚ) : Fin n → ℚ :=
  fun i => if i = u then x else f i

/-- Loss-improvement ratio, `validator.py` line 587:
`(loss_before - loss_after) / loss_before if loss_before > 0 else 0`. -/
def improvement (lossBefore lossAfter : ℚ) : ℚ :=
  if 0 < lossBefore then (lossBefore - lossAfter) / lossBefore else 0

/-- Raw gradient-quality score, `validator.py` line 584 (the source computes
this expression twice, once as `score` and once as `improvement_own`). -/
def rawScore (lossBefore lossAfter : ℚ) : ℚ :=
  if 0 < lossBefore then (lossBefore - lossAfter) / lossBefore else 0

/-- Overfitting indicator, `validator.py` line 589:
`1 if improvement_own > improvement_random else -1`. -/
def binaryIndicator (impOwn impRandom : ℚ) : ℤ :=
  if impOwn > impRandom then 1 else -1

/-- `min_power_normalization` (`validator.py` lines 846-871) on a vector of
logits: raise to `power`, divide by the sum if the sum exceeds `epsilon`,
otherwise return all zeros.  (The dim-0 unsqueeze of the source only
reshapes a scalar input into a 1-element vector; list inputs are already
1-dimensional.) -/
def min_power_normalization (logits : List ℚ) (power : ℕ) (epsilon : ℚ) : List ℚ :=
  let powered := logits.map (fun x => x ^ power)
  let sumPowered := powered.sum
  if sumPowered > epsilon then powered.map (fun x => x / sumPowered)
  else powered.map (fun _ => 0)

/-- Epsilon of `min_power_normalization` (source default `1e-8`). -/
def normEpsilon : ℚ := 1 / 10 ^ 8

/-- The boolean mask of `validator.py` lines 615-617 / 683-686:
peers that are both in `evaluated_uids` and have `moving_avg_scores > 0`. -/
def positiveMask {n : ℕ} (mas : Fin n → ℚ) (evaluated : Finset (Fin n)) :
    Finset (Fin n) :=
  Finset.univ.filter (fun i => i ∈ evaluated ∧ 0 < mas i)

/-- Weight recomputation of the successful-evaluation branch,
`validator.py` lines 613-619: masked peers get `score / Σ masked scores`,
everyone else keeps the zero the vector was initialised with. -/
def weightsLinear {n : ℕ} (mas : Fin n → ℚ) (evaluated : Finset (Fin n)) :
    Fin n → ℚ :=
  let mask := positiveMask mas evaluated
  let total := ∑ i ∈ mask, mas i
  fun i => if i ∈ mask then mas i / total else 0

/-- Weight recomputation of the missing-submission branch,
`validator.py` lines 682-693: `min_power_normalization` applied to the
masked scores and scattered back, elementwise `score^power / Σ masked
score^power`, all-zero when the powered sum is at most `normEpsilon`
or when the mask is empty. -/
def weightsPower {n : ℕ} (mas : Fin n → ℚ) (evaluated : Finset (Fin n))
    (power : ℕ) : Fin n → ℚ :=
  let mask := positiveMask mas evaluated
  let sumPowered := ∑ i ∈ mask, mas i ^ power
  fun i =>
    if i ∈ mask then
      (if sumPowered > normEpsilon then mas i ^ power / sumPowered else 0)
    else 0

/-- The configuration constants the loop reads from `self.hparams`, plus the
learning-rate schedule abstracted as a function of the scheduler's
`last_epoch` (the LinearLR/cosine curve itself is outside the spec scope). -/
structure Hparams where
  ma_alpha : ℚ
  power_normalisation : ℕ
  checkpoint_frequency : ℕ
  windows_per_weights : ℕ
  lrOf : ℕ → ℚ

/-- The four measured mean losses of one evaluation (outputs of the
forward passes, external to the engine). -/
structure EvalLosses where
  lossBeforeOwn : ℚ
  lossAfterOwn : ℚ
  lossBeforeRandom : ℚ
  lossAfterRandom : ℚ

/-- Mutable validator state touched by one window iteration.
`params`, `optLr`, `lastEpoch`, `momentum` and `grads` model the model
parameters, the optimizer's learning rate, the scheduler step counter,
`self.momentum` and the per-parameter `.grad` slots; a parameter's value,
gradient and momentum are abstract rationals.  `weights` records the last
weight vector the loop computed (the local `weights` of the source, which
is what `set_weights` submits), and `checkpoints` counts dispatched
checkpoint writes. -/
structure VState (n P : ℕ) where
  params : Fin P → ℚ
  optLr : ℚ
  lastEpoch : ℕ
  momentum : Fin P → ℚ
  grads : Fin P → Option ℚ
  movingAvgScores : Fin n → ℚ
  binaryMovingAverages : Fin n → ℚ
  evaluatedUids : Finset (Fin n)
  inactiveScores : Fin n → Option (ℕ × ℚ)
  peers : List (Fin n)
  evalPeers : List (Fin n)
  globalStep : ℕ
  syncWindow : ℕ
  weights : Fin n → ℚ
  checkpoints : ℕ

/-- External inputs consumed by one window iteration: refreshed peer
lists, the newly-inactive report, the aggregated gather payload (per
parameter an optional decoded dense gradient), the randomly chosen eval
peer, its payload (mean losses) or `none` for a missing submission, and
the opaque parameter mutations performed while the candidate gradient is
applied during evaluation. -/
structure WindowInput (n P : ℕ) where
  peers : List (Fin n)
  evalPeers : List (Fin n)
  newlyInactive : List (Fin n)
  gather : Option (Fin P → Option ℚ)
  evalChoice : Fin n
  evalPayload : Option EvalLosses
  evalMutateOwn : (Fin P → ℚ) → Fin P → ℚ
  evalMutateRandom : (Fin P → ℚ) → Fin P → ℚ

/-- `torch.Tensor.sign_`. -/
def signQ (x : ℚ) : ℚ := if 0 < x then 1 else if x < 0 then -1 else 0

/-- Initial `moving_avg_scores`, `validator.py` line 174: all zeros. -/
def initialScores (n : ℕ) : Fin n → ℚ := fun _ => 0

/-- Startup gather-peer initialisation, `validator.py` lines 203-209:
take `config.peers` if supplied, otherwise `comms.peers`, then append the
validator's own uid when absent. -/
def loadPeers {n : ℕ} (configPeers : Option (List (Fin n)))
    (commsPeers : List (Fin n)) (uid : Fin n) : List (Fin n) :=
  let ps := configPeers.getD commsPeers
  if uid ∈ ps then ps else ps ++ [uid]

/-- Pre-evaluation phase of one window iteration, `validator.py` lines
294-340: advance `sync_window`, adopt the refreshed peer lists verbatim,
snapshot newly inactive peers, then for every tracked inactive peer either
untrack it (back in the eval set, no penalty) or multiply its
`moving_avg_scores` entry by `0.75`.  The source iterates the snapshot
`list(self.inactive_scores.items())` and each pass touches only its own
uid's entries, so the pointwise form is exact.  `preInact1` is the
inactivity map after the newly-inactive snapshots (lines 313-316). -/
def preInact1 {n P : ℕ} (inp : WindowInput n P) (s : VState n P) :
    Fin n → Option (ℕ × ℚ) := fun u =>
  if u ∈ inp.newlyInactive ∧ s.inactiveScores u = none then
    some (s.syncWindow + 1, s.movingAvgScores u)
  else s.inactiveScores u

/-- Inactivity map after the penalty pass: tracked peers back in the eval
set are removed (`validator.py` lines 321-324). -/
def preInact2 {n P : ℕ} (inp : WindowInput n P) (s : VState n P) :
    Fin n → Option (ℕ × ℚ) := fun u =>
  if (preInact1 inp s u).isSome ∧ u ∈ inp.evalPeers then none
  else preInact1 inp s u

/-- Scores after the penalty pass: every tracked peer still absent from
the eval set is multiplied by `0.75` (`validator.py` lines 326-328). -/
def preMas {n P : ℕ} (inp : WindowInput n P) (s : VState n P) : Fin n → ℚ :=
  fun u =>
    if (preInact1 inp s u).isSome ∧ u ∉ inp.evalPeers then
      s.movingAvgScores u * (3 / 4)
    else s.movingAvgScores u

def windowPre {n P : ℕ} (inp : WindowInput n P) (s : VState n P) : VState n P :=
  { s with
    syncWindow := s.syncWindow + 1
    peers := inp.peers
    evalPeers := inp.evalPeers
    inactiveScores := preInact2 inp s
    movingAvgScores := preMas inp s }

/-- Reputation update on a successful evaluation of `u`, `validator.py`
lines 584-610: binary-indicator EMA, its `/2` normalisation, the blended
final score, the floor-at-zero EMA of `moving_avg_scores`, and the
append-only insertion into `evaluated_uids`. -/
def scoreEval {n P : ℕ} (hp : Hparams) (u : Fin n) (e : EvalLosses)
    (s : VState n P) : VState n P :=
  let score := rawScore e.lossBeforeOwn e.lossAfterOwn
  let impOwn := improvement e.lossBeforeOwn e.lossAfterOwn
  let impRandom := improvement e.lossBeforeRandom e.lossAfterRandom
  let ind : ℚ := (binaryIndicator impOwn impRandom : ℚ)
  let bma := (1 - hp.ma_alpha) * s.binaryMovingAverages u + hp.ma_alpha * ind
  let normalizedBinaryAvg := bma / 2
  let finalScore := score * normalizedBinaryAvg
  let mas :=
    maxQ ((1 - hp.ma_alpha) * s.movingAvgScores u + hp.ma_alpha * finalScore) 0
  { s with
    binaryMovingAverages := updF s.binaryMovingAverages u bma
    movingAvgScores := updF s.movingAvgScores u mas
    evaluatedUids := insert u s.evaluatedUids }

/-- The evaluation branch of the `try:` body: on a present payload the
success path (`validator.py` lines 388-669: candidate-gradient sign-step
and its two parameter restorations, scoring/reputation update, weight
recomputation), on an absent payload the missing-submission path
(lines 670-713: halve the score, mark evaluated, power-normalized weight
recomputation).  `snapParams` is `original_params` (line 405), equal to
the parameters at try entry. -/
def branchOps {n P : ℕ} (hp : Hparams) (snapParams : Fin P → ℚ)
    (inp : WindowInput n P) : List (VState n P → VState n P) :=
  match inp.evalPayload with
  | some e =>
    [fun s => { s with grads := fun _ => none },
     fun s => { s with params := inp.evalMutateOwn s.params },
     fun s => { s with params := snapParams },
     fun s => { s with params := inp.evalMutateRandom s.params },
     fun s => { s with params := snapParams },
     fun s => scoreEval hp inp.evalChoice e s,
     fun s =>
       { s with weights := weightsLinear s.movingAvgScores s.evaluatedUids }]
  | none =>
    [fun s =>
       { s with
         movingAvgScores :=
           updF s.movingAvgScores inp.evalChoice
             (s.movingAvgScores inp.evalChoice * (1 / 2))
         evaluatedUids := insert inp.evalChoice s.evaluatedUids },
     fun s =>
       { s with
         weights :=
           weightsPower s.movingAvgScores s.evaluatedUids
             hp.power_normalisation }]

/-- The common tail of the `try:` body (`validator.py` lines 715-821):
periodic checkpoint dispatch, zeroed gradients, decode and sign of the
aggregated gather gradient with the momentum snapshot, the optimizer step,
the scheduler step, and the `global_step` increment. -/
def tailOps {n P : ℕ} (hp : Hparams) (inp : WindowInput n P) :
    List (VState n P → VState n P) :=
  [fun s =>
     if s.globalStep % hp.checkpoint_frequency = 0 then
       { s with checkpoints := s.checkpoints + 1 }
     else s,
   fun s => { s with grads := fun _ => none },
   fun s =>
     match inp.gather with
     | some g =>
       { s with
         momentum := fun p => match g p with | some v => v | none => s.momentum p
         grads := fun p =>
           match g p with | some v => some (signQ v) | none => none }
     | none => s,
   fun s =>
     { s with
       params := fun p =>
         match s.grads p with
         | some gv => s.params p - s.optLr * gv
         | none => s.params p },
   fun s => { s with lastEpoch := s.lastEpoch + 1, optLr := hp.lrOf (s.lastEpoch + 1) },
   fun s => { s with globalStep := s.globalStep + 1 }]

/-- The body of the `try:` block (`validator.py` lines 386-821) as a list
of state transformers, so that an exception raised at any point can be
modelled as executing a prefix. -/
def tryOps {n P : ℕ} (hp : Hparams) (snapParams : Fin P → ℚ)
    (inp : WindowInput n P) : List (VState n P → VState n P) :=
  branchOps hp snapParams inp ++ tailOps hp inp

/-- Run a list of state transformers in order. -/
def runOps {n P : ℕ} : List (VState n P → VState n P) → VState n P → VState n P
  | [], s => s
  | f :: fs, s => runOps fs (f s)

/-- The snapshot `original_state` of `validator.py` lines 366-371: deep
copies of the model parameters and of the value-relevant optimizer and
scheduler state (learning rate, step counter). -/
structure Snapshot (P : ℕ) where
  params : Fin P → ℚ
  optLr : ℚ
  lastEpoch : ℕ

/-- Take the pre-evaluation snapshot. -/
def takeSnapshot {n P : ℕ} (s : VState n P) : Snapshot P :=
  { params := s.params, optLr := s.optLr, lastEpoch := s.lastEpoch }

/-- The `finally:` block, `validator.py` lines 823-830: load the snapshot
back into the model, the optimizer and the scheduler, whatever the state. -/
def restoreSnapshot {n P : ℕ} (snap : Snapshot P) (s : VState n P) : VState n P :=
  { s with params := snap.params, optLr := snap.optLr, lastEpoch := snap.lastEpoch }

/-- One window iteration in which the `try:` body executes exactly its
first `k` operations before control reaches `finally:` — `k` below the
list length models an exception raised during the evaluation/update
phase, `k` at or above it the normal completion.  The empty-eval-peers
early exit (`validator.py` lines 359-363) bypasses the whole `try`. -/
def windowStepGen {n P : ℕ} (hp : Hparams) (k : ℕ) (inp : WindowInput n P)
    (s : VState n P) : VState n P :=
  let s1 := windowPre inp s
  if s1.evalPeers.isEmpty then { s1 with globalStep := s1.globalStep + 1 }
  else
    restoreSnapshot (takeSnapshot s1)
      (runOps ((tryOps hp s1.params inp).take k) s1)

/-- One complete window iteration of `Validator.run` on the normal path
(no catch-up): pre-phase, early exit on an empty eval-peer list, otherwise
snapshot, the full `try:` body, and the `finally:` restoration. -/
def windowStep {n P : ℕ} (hp : Hparams) (inp : WindowInput n P)
    (s : VState n P) : VState n P :=
  let s1 := windowPre inp s
  if s1.evalPeers.isEmpty then { s1 with globalStep := s1.globalStep + 1 }
  else
    restoreSnapshot (takeSnapshot s1) (runOps (tryOps hp s1.params inp) s1)

/-- The state reached at the end of the `try:` body, before `finally:`
runs — used to observe that the optimizer/scheduler step did happen before
being reverted. -/
def tryOutcome {n P : ℕ} (hp : Hparams) (inp : WindowInput n P)
    (s : VState n P) : VState n P :=
  let s1 := windowPre inp s
  runOps (tryOps hp s1.params inp) s1

/-- A sequence of consecutive window iterations. -/
def windowSteps {n P : ℕ} (hp : Hparams) (inps : List (WindowInput n P))
    (s : VState n P) : VState n P :=
  inps.foldl (fun st i => windowStep hp i st) s


/-! ### Concrete fixtures used by witnesses and counterexamples -/

/-- All-zero state over `n` peers and `P` parameters. -/
def zeroState (n P : ℕ) : VState n P :=
  { params := fun _ => 0, optLr := 0, lastEpoch := 0,
    momentum := fun _ => 0, grads := fun _ => none,
    movingAvgScores := fun _ => 0, binaryMovingAverages := fun _ => 0,
    evaluatedUids := ∅, inactiveScores := fun _ => none,
    peers := [], evalPeers := [],
    globalStep := 0, syncWindow := 0,
    weights := fun _ => 0, checkpoints := 0 }

/-- Hyperparameters used by the concrete C1 window. -/
def c1Hp : Hparams :=
  { ma_alpha := 1/2, power_normalisation := 2, checkpoint_frequency := 1,
    windows_per_weights := 1, lrOf := fun _ => 1 }

/-- Entry state of the concrete C1 window: one peer, one parameter,
learning rate 1, scheduler at epoch 0. -/
def c1State : VState 1 1 :=
  { zeroState 1 1 with optLr := 1, peers := [0], evalPeers := [0] }

/-- Concrete C1 window input: non-empty eval-peer list, a present
evaluation payload, and a present aggregated gather gradient of value 1
for the single parameter. -/
def c1Inp : WindowInput 1 1 :=
  { peers := [0], evalPeers := [0], newlyInactive := [],
    gather := some (fun _ => some 1),
    evalChoice := 0,
    evalPayload := some { lossBeforeOwn := 2, lossAfterOwn := 3/2,
                          lossBeforeRandom := 1, lossAfterRandom := 1 },
    evalMutateOwn := id, evalMutateRandom := id }

/-- Hyperparameters for the C2 witness window. -/
def c2Hp : Hparams :=
  { ma_alpha := 1/2, power_normalisation := 2, checkpoint_frequency := 2,
    windows_per_weights := 3, lrOf := fun _ => 1/10 }

/-- Entry state for the C2 witness window. -/
def c2State : VState 1 1 :=
  { zeroState 1 1 with
    optLr := 1/10
    lastEpoch := 5
    params := fun _ => 7
    peers := [0]
    evalPeers := [0] }

/-- Window input for the C2 witness: present payload, no gather result. -/
def c2Inp : WindowInput 1 1 :=
  { peers := [0], evalPeers := [0], newlyInactive := [],
    gather := none, evalChoice := 0,
    evalPayload := some { lossBeforeOwn := 1, lossAfterOwn := 1,
                          lossBeforeRandom := 1, lossAfterRandom := 1 },
    evalMutateOwn := fun f => fun p => f p + 3, evalMutateRandom := id }

/-- Hyperparameters for the C9 counterexample window (power 2,
checkpointing every step). -/
def c9Hp : Hparams :=
  { ma_alpha := 1/2, power_normalisation := 2, checkpoint_frequency := 1,
    windows_per_weights := 1, lrOf := fun _ => 1 }

/-- Entry state for the C9 counterexample: validator uid 0, startup peer
list produced by `loadPeers` from an external list that does not contain
uid 0. -/
def c9State : VState 2 1 :=
  { zeroState 2 1 with peers := loadPeers none [1] 0, evalPeers := [0, 1] }

/-- C9 counterexample window input: the external directory returns a
gather list without the validator uid 0, and the loop adopts it verbatim. -/
def c9Inp : WindowInput 2 1 :=
  { peers := [1], evalPeers := [1], newlyInactive := [],
    gather := none, evalChoice := 1,
    evalPayload := none,
    evalMutateOwn := id, evalMutateRandom := id }

/-- Hyperparameters for the C10 witness. -/
def c10Hp : Hparams :=
  { ma_alpha := 1/2, power_normalisation := 2, checkpoint_frequency := 1,
    windows_per_weights := 1, lrOf := fun _ => 1 }

/-- Entry state for the C10 witness: peer 0 evaluated with a positive
score, gradients gathered, nothing else special. -/
def c10State : VState 2 1 :=
  { zeroState 2 1 with
    optLr := 1
    params := fun _ => 5
    movingAvgScores := fun i => if i = 0 then 3 else 0
    evaluatedUids := {0}
    peers := [0, 1]
    evalPeers := [0, 1]
    globalStep := 4
    weights := fun i => if i = 0 then 1 else 0 }

/-- C10 witness input: the refreshed eval-peer list is empty although a
gather payload arrived. -/
def c10Inp : WindowInput 2 1 :=
  { peers := [0, 1], evalPeers := [], newlyInactive := [],
    gather := some (fun _ => some 2), evalChoice := 0,
    evalPayload := none,
    evalMutateOwn := id, evalMutateRandom := id }

/-- Hyperparameters for the C3/C4 counterexample windows (configured
power exponent 2). -/
def c3Hp : Hparams :=
  { ma_alpha := 1/2, power_normalisation := 2, checkpoint_frequency := 1,
    windows_per_weights := 1, lrOf := fun _ => 1 }

/-- Entry state for the C3 counterexample: peers 0 and 1 both evaluated
with score 2. -/
def c3State : VState 2 1 :=
  { zeroState 2 1 with
    movingAvgScores := fun _ => 2
    evaluatedUids := {0, 1}
    peers := [0, 1]
    evalPeers := [0, 1] }

/-- C3 counterexample input: a successful evaluation of peer 0 with flat
losses, which drags peer 0's score to 1 while peer 1 stays at 2. -/
def c3Inp : WindowInput 2 1 :=
  { peers := [0, 1], evalPeers := [0, 1], newlyInactive := [],
    gather := none, evalChoice := 0,
    evalPayload := some { lossBeforeOwn := 1, lossAfterOwn := 1,
                          lossBeforeRandom := 1, lossAfterRandom := 1 },
    evalMutateOwn := id, evalMutateRandom := id }

/-- Entry state for the C4 counterexample: evaluated peer 0 holds the
tiny positive score `1e-5`. -/
def c4State : VState 2 1 :=
  { zeroState 2 1 with
    movingAvgScores := fun i => if i = 0 then 1 / 100000 else 0
    evaluatedUids := {0}
    peers := [0, 1]
    evalPeers := [1] }

/-- C4 counterexample input: peer 1's submission is missing, so the
window recomputes weights with power normalization over the masked
scores, whose powered sum `1e-10` is below the `1e-8` epsilon. -/
def c4Inp : WindowInput 2 1 :=
  { peers := [0, 1], evalPeers := [1], newlyInactive := [],
    gather := none, evalChoice := 1,
    evalPayload := none,
    evalMutateOwn := id, evalMutateRandom := id }

/-- Evaluated set used by the C4 witness. -/
def c4ev : Finset (Fin 2) := {0, 1}

/-- Scores used by the C4 witness (normal magnitudes). -/
def c4mas : Fin 2 → ℚ := fun i => if i = 0 then 3 else 1

/-- Scores used by the C4 witness epsilon case (all tiny). -/
def c4masSmall : Fin 2 → ℚ := fun _ => 1 / 100000

/-- Hyperparameters for the C7 witness. -/
def c7Hp : Hparams :=
  { ma_alpha := 1/2, power_normalisation := 2, checkpoint_frequency := 1,
    windows_per_weights := 1, lrOf := fun _ => 1 }

/-- Entry state for the C7 witness: peer 1 holds score 4 and is not yet
tracked as inactive. -/
def c7State : VState 2 1 :=
  { zeroState 2 1 with
    movingAvgScores := fun i => if i = 1 then 4 else 0
    peers := [0, 1]
    evalPeers := [0, 1] }

/-- First C7 witness window: peer 1 drops out of the eval set and is
reported newly inactive; peer 0 is the evaluation target. -/
def c7W1 : WindowInput 2 1 :=
  { peers := [0], evalPeers := [0], newlyInactive := [1],
    gather := none, evalChoice := 0,
    evalPayload := none,
    evalMutateOwn := id, evalMutateRandom := id }

/-- Second C7 witness window: peer 1 is still absent. -/
def c7W2 : WindowInput 2 1 :=
  { peers := [0], evalPeers := [0], newlyInactive := [],
    gather := none, evalChoice := 0,
    evalPayload := none,
    evalMutateOwn := id, evalMutateRandom := id }

/-- Entry state for the C8 witness: peer 1 holds score `0.8`. -/
def c8State : VState 2 1 :=
  { zeroState 2 1 with
    movingAvgScores := fun i => if i = 1 then 4/5 else 0
    peers := [0, 1]
    evalPeers := [0, 1] }

/-- C8 witness input: peer 1 is selected and its payload is absent. -/
def c8Inp : WindowInput 2 1 :=
  { peers := [0, 1], evalPeers := [0, 1], newlyInactive := [],
    gather := none, evalChoice := 1,
    evalPayload := none,
    evalMutateOwn := id, evalMutateRandom := id }

/-! ### Helper lemmas -/

theorem isEmpty_false_of_ne {A : Type} {l : List A} (h : l ≠ []) :
    l.isEmpty = false := by
  cases l with
  | nil => exact absurd rfl h
  | cons a t => rfl

theorem windowStep_eq_of_ne {n P : ℕ} (hp : Hparams) (inp : WindowInput n P)
    (s : VState n P) (hne : inp.evalPeers ≠ []) :
    windowStep hp inp s
      = restoreSnapshot (takeSnapshot (windowPre inp s))
          (runOps (tryOps hp (windowPre inp s).params inp) (windowPre inp s)) := by
  unfold windowStep
  have hfe : (windowPre inp s).evalPeers.isEmpty = false := isEmpty_false_of_ne hne
  simp [hfe]

theorem windowStepGen_eq_of_ne {n P : ℕ} (hp : Hparams) (k : ℕ)
    (inp : WindowInput n P) (s : VState n P) (hne : inp.evalPeers ≠ []) :
    windowStepGen hp k inp s
      = restoreSnapshot (takeSnapshot (windowPre inp s))
          (runOps ((tryOps hp (windowPre inp s).params inp).take k) (windowPre inp s)) := by
  unfold windowStepGen
  have hfe : (windowPre inp s).evalPeers.isEmpty = false := isEmpty_false_of_ne hne
  simp [hfe]

theorem windowStep_eq_of_empty {n P : ℕ} (hp : Hparams) (inp : WindowInput n P)
    (s : VState n P) (he : inp.evalPeers = []) :
    windowStep hp inp s
      = { windowPre inp s with globalStep := (windowPre inp s).globalStep + 1 } := by
  unfold windowStep
  have hfe : (windowPre inp s).evalPeers.isEmpty = true := by
    show inp.evalPeers.isEmpty = true
    rw [he]
    rfl
  simp [hfe]

theorem runOps_append {n P : ℕ} (l1 l2 : List (VState n P → VState n P))
    (s : VState n P) : runOps (l1 ++ l2) s = runOps l2 (runOps l1 s) := by
  induction l1 generalizing s with
  | nil => rfl
  | cons f fs ih => simp [runOps, ih]

theorem runOps_tailOps_proj {n P : ℕ} (hp : Hparams) (inp : WindowInput n P)
    (t : VState n P) :
    (runOps (tailOps hp inp) t).movingAvgScores = t.movingAvgScores ∧
    (runOps (tailOps hp inp) t).binaryMovingAverages = t.binaryMovingAverages ∧
    (runOps (tailOps hp inp) t).evaluatedUids = t.evaluatedUids ∧
    (runOps (tailOps hp inp) t).weights = t.weights ∧
    (runOps (tailOps hp inp) t).inactiveScores = t.inactiveScores ∧
    (runOps (tailOps hp inp) t).peers = t.peers ∧
    (runOps (tailOps hp inp) t).evalPeers = t.evalPeers := by
  by_cases hc : t.globalStep % hp.checkpoint_frequency = 0 <;>
    cases hg : inp.gather <;>
      simp [tailOps, runOps, hc, hg]

theorem runOps_branchOps_proj {n P : ℕ} (hp : Hparams) (sp : Fin P → ℚ)
    (inp : WindowInput n P) (t : VState n P) :
    (runOps (branchOps hp sp inp) t).inactiveScores = t.inactiveScores ∧
    (runOps (branchOps hp sp inp) t).peers = t.peers ∧
    (runOps (branchOps hp sp inp) t).evalPeers = t.evalPeers := by
  cases hpay : inp.evalPayload <;> simp [branchOps, runOps, hpay, scoreEval]

theorem runOps_branchOps_mas_ne {n P : ℕ} (hp : Hparams) (sp : Fin P → ℚ)
    (inp : WindowInput n P) {u : Fin n} (hcho : inp.evalChoice ≠ u)
    (t : VState n P) :
    (runOps (branchOps hp sp inp) t).movingAvgScores u = t.movingAvgScores u := by
  have hu : u ≠ inp.evalChoice := fun h => hcho h.symm
  cases hpay : inp.evalPayload <;>
    simp [branchOps, runOps, hpay, scoreEval, updF, hu]

theorem windowStep_keep_of_choice_ne {n P : ℕ} (hp : Hparams)
    (inp : WindowInput n P) {u : Fin n} (hcho : inp.evalChoice ≠ u)
    (t : VState n P) :
    (windowStep hp inp t).movingAvgScores u = (windowPre inp t).movingAvgScores u ∧
    (windowStep hp inp t).inactiveScores u = (windowPre inp t).inactiveScores u := by
  by_cases he : inp.evalPeers = []
  · rw [windowStep_eq_of_empty hp inp t he]
    exact ⟨rfl, rfl⟩
  · rw [windowStep_eq_of_ne hp inp t he]
    unfold tryOps
    rw [runOps_append]
    constructor
    · show (runOps (tailOps hp inp) _).movingAvgScores u = _
      rw [(runOps_tailOps_proj hp inp _).1]
      exact runOps_branchOps_mas_ne hp _ inp hcho _
    · show (runOps (tailOps hp inp) _).inactiveScores u = _
      rw [(runOps_tailOps_proj hp inp _).2.2.2.2.1]
      rw [(runOps_branchOps_proj hp _ inp _).1]

/-! ### Claim theorems -/

/-- Claim C2 (confirmed) — in every window iteration that enters the
evaluation phase, the model parameters, the optimizer state (learning
rate) and the scheduler state (step counter) equal the pre-evaluation
snapshot again at the end of the iteration, on every exit path: normal
completion, the missing-submission branch (both are instances of
`windowStep`, i.e. the full `try:` body), and an exception raised after
any prefix of `k` operations of the body (`windowStepGen`). -/
theorem C2_restore_on_every_exit_path {n P : ℕ} (hp : Hparams) (k : ℕ)
    (inp : WindowInput n P) (s : VState n P) (hne : inp.evalPeers ≠ []) :
    ((windowStepGen hp k inp s).params = s.params ∧
     (windowStepGen hp k inp s).optLr = s.optLr ∧
     (windowStepGen hp k inp s).lastEpoch = s.lastEpoch) ∧
    ((windowStep hp inp s).params = s.params ∧
     (windowStep hp inp s).optLr = s.optLr ∧
     (windowStep hp inp s).lastEpoch = s.lastEpoch) := by
  rw [windowStepGen_eq_of_ne hp k inp s hne, windowStep_eq_of_ne hp inp s hne]
  exact ⟨⟨rfl, rfl, rfl⟩, ⟨rfl, rfl, rfl⟩⟩

/-- Witness for C2: a concrete window (one peer, present payload, an
evaluation mutation that shifts the parameters by 3, an exception cut
after 2 of the try operations) in which parameters, learning rate and
scheduler epoch all return to their entry values. -/
theorem C2_restore_witness :
    ((windowStepGen c2Hp 2 c2Inp c2State).params = c2State.params ∧
     (windowStepGen c2Hp 2 c2Inp c2State).optLr = c2State.optLr ∧
     (windowStepGen c2Hp 2 c2Inp c2State).lastEpoch = c2State.lastEpoch) ∧
    ((windowStep c2Hp c2Inp c2State).params = c2State.params ∧
     (windowStep c2Hp c2Inp c2State).optLr = c2State.optLr ∧
     (windowStep c2Hp c2Inp c2State).lastEpoch = c2State.lastEpoch) :=
  C2_restore_on_every_exit_path c2Hp 2 c2Inp c2State (by simp [c2Inp])

/-- Claim C1 (code bug) — on a full normal-path window (non-empty
eval-peer list, present payload, present gather payload) the optimizer
step and scheduler step do execute inside the `try:` body
(`tryOutcome`: epoch advances by one, the parameter moves by
`-lr * sign(gradient) = -1`), but the `finally:` restoration then loads
the pre-evaluation snapshot back, so at the end of the completed
iteration (`windowStep`, `global_step` incremented) the parameters,
learning rate and scheduler epoch are the snapshot values again: the
update does not persist, contradicting the claim and §4.8 of the spec. -/
theorem C1_update_reverted_by_finally :
    (tryOutcome c1Hp c1Inp c1State).lastEpoch = c1State.lastEpoch + 1 ∧
    (tryOutcome c1Hp c1Inp c1State).params 0 = c1State.params 0 - 1 ∧
    (windowStep c1Hp c1Inp c1State).globalStep = c1State.globalStep + 1 ∧
    (windowStep c1Hp c1Inp c1State).lastEpoch = c1State.lastEpoch ∧
    (windowStep c1Hp c1Inp c1State).params 0 = c1State.params 0 ∧
    (windowStep c1Hp c1Inp c1State).optLr = c1State.optLr := by
  norm_num [windowStep, tryOutcome, windowPre, preInact1, preInact2, preMas, tryOps, branchOps, tailOps, runOps,
    scoreEval, restoreSnapshot, takeSnapshot, rawScore, improvement, binaryIndicator,
    maxQ, updF, weightsLinear, weightsPower, positiveMask, signQ,
    c1Hp, c1Inp, c1State, zeroState]

/-- Claim C10 (confirmed) — when the refreshed eval-peer list is empty
the iteration ends right after the inactivity penalties: model
parameters, optimizer state, scheduler state, momentum, gradients,
checkpoint count, evaluated set, weight vector and binary moving
averages are all unchanged (the gathered gradients are never applied),
the scores carry exactly the pre-phase inactivity updates, and
`global_step` is still incremented by one. -/
theorem C10_empty_eval_peers_early_exit {n P : ℕ} (hp : Hparams)
    (inp : WindowInput n P) (s : VState n P) (he : inp.evalPeers = []) :
    (windowStep hp inp s).params = s.params ∧
    (windowStep hp inp s).optLr = s.optLr ∧
    (windowStep hp inp s).lastEpoch = s.lastEpoch ∧
    (windowStep hp inp s).momentum = s.momentum ∧
    (windowStep hp inp s).grads = s.grads ∧
    (windowStep hp inp s).checkpoints = s.checkpoints ∧
    (windowStep hp inp s).evaluatedUids = s.evaluatedUids ∧
    (windowStep hp inp s).weights = s.weights ∧
    (windowStep hp inp s).binaryMovingAverages = s.binaryMovingAverages ∧
    (windowStep hp inp s).movingAvgScores = (windowPre inp s).movingAvgScores ∧
    (windowStep hp inp s).globalStep = s.globalStep + 1 := by
  rw [windowStep_eq_of_empty hp inp s he]
  exact ⟨rfl, rfl, rfl, rfl, rfl, rfl, rfl, rfl, rfl, rfl, rfl⟩

/-- Witness for C10: a concrete window with an empty eval-peer list, a
present gather payload and non-trivial entry state. -/
theorem C10_empty_eval_peers_witness :
    (windowStep c10Hp c10Inp c10State).params = c10State.params ∧
    (windowStep c10Hp c10Inp c10State).optLr = c10State.optLr ∧
    (windowStep c10Hp c10Inp c10State).lastEpoch = c10State.lastEpoch ∧
    (windowStep c10Hp c10Inp c10State).momentum = c10State.momentum ∧
    (windowStep c10Hp c10Inp c10State).grads = c10State.grads ∧
    (windowStep c10Hp c10Inp c10State).checkpoints = c10State.checkpoints ∧
    (windowStep c10Hp c10Inp c10State).evaluatedUids = c10State.evaluatedUids ∧
    (windowStep c10Hp c10Inp c10State).weights = c10State.weights ∧
    (windowStep c10Hp c10Inp c10State).binaryMovingAverages = c10State.binaryMovingAverages ∧
    (windowStep c10Hp c10Inp c10State).movingAvgScores = (windowPre c10Inp c10State).movingAvgScores ∧
    (windowStep c10Hp c10Inp c10State).globalStep = c10State.globalStep + 1 :=
  C10_empty_eval_peers_early_exit c10Hp c10Inp c10State (by simp [c10Inp])

/-- Claim C6 (confirmed) — for non-negative mean losses the improvement
ratio equals `(before - after) / before` with the value `0` exactly when
`before = 0` (the source's `> 0` guard coincides with the spec's `= 0`
case under non-negativity), `raw_score` is the same expression as
`improvement_own`, and the scenario `before = 2.0, after = 1.5` yields
`raw_score = 1/4` with binary indicator `+1` against
`improvement_random = 1/10`. -/
theorem C6_improvement_rawscore_indicator (lbo lao : ℚ) (h : 0 ≤ lbo) :
    (improvement lbo lao = if lbo = 0 then 0 else (lbo - lao) / lbo) ∧
    rawScore lbo lao = improvement lbo lao ∧
    improvement 2 (3/2) = 1/4 ∧
    rawScore 2 (3/2) = 1/4 ∧
    binaryIndicator (improvement 2 (3/2)) (1/10) = 1 := by
  refine ⟨?_, rfl, by norm_num [improvement], by norm_num [rawScore],
    by norm_num [improvement, binaryIndicator]⟩
  rcases eq_or_lt_of_le h with h0 | h0
  · rw [improvement, if_neg (by rw [← h0]; exact lt_irrefl 0), if_pos h0.symm]
  · rw [improvement, if_pos h0, if_neg (ne_of_gt h0)]

/-- Witness for C6 at `loss_before_own = 2`. -/
theorem C6_improvement_witness :
    (improvement 2 (3/2) = if (2:ℚ) = 0 then 0 else (2 - 3/2) / 2) ∧
    rawScore 2 (3/2) = improvement 2 (3/2) ∧
    improvement 2 (3/2) = 1/4 ∧
    rawScore 2 (3/2) = 1/4 ∧
    binaryIndicator (improvement 2 (3/2)) (1/10) = 1 :=
  C6_improvement_rawscore_indicator 2 (3/2) (by norm_num)

/-- Claim C9 (corrected) — the self-inclusion guarantee holds at startup:
`loadPeers` always yields a list containing the validator's own uid; but
inside the loop each window's refresh adopts the externally supplied
gather list verbatim (`peers = comms.peers`, line 301), so self-inclusion
within a window holds only if the external list contains the uid. -/
theorem C9_self_inclusion_startup_only {n P : ℕ} (uid : Fin n) :
    (∀ (configPeers : Option (List (Fin n))) (commsPeers : List (Fin n)),
       uid ∈ loadPeers configPeers commsPeers uid) ∧
    (∀ (hp : Hparams) (inp : WindowInput n P) (s : VState n P),
       (windowStep hp inp s).peers = inp.peers) := by
  constructor
  · intro configPeers commsPeers
    unfold loadPeers
    by_cases hm : uid ∈ configPeers.getD commsPeers
    · rw [if_pos hm]
      exact hm
    · rw [if_neg hm]
      exact List.mem_append_right _ (List.mem_singleton.mpr rfl)
  · intro hp inp s
    by_cases he : inp.evalPeers = []
    · rw [windowStep_eq_of_empty hp inp s he]
      rfl
    · rw [windowStep_eq_of_ne hp inp s he]
      show (runOps (tryOps hp _ inp) _).peers = inp.peers
      unfold tryOps
      rw [runOps_append, (runOps_tailOps_proj hp inp _).2.2.2.2.2.1,
        (runOps_branchOps_proj hp _ inp _).2.1]
      rfl

/-- Counterexample for C9 as stated: with validator uid 0, startup
produced a gather list containing 0 (`loadPeers` appended it), but the
next window's refresh returns the external list `[1]` and the iteration
adopts it verbatim, so after the refresh the validator's own uid is no
longer in the gather-peer list. -/
theorem C9_self_inclusion_counterexample :
    (0 : Fin 2) ∈ c9State.peers ∧
    (0 : Fin 2) ∉ (windowStep c9Hp c9Inp c9State).peers := by
  constructor
  · simp [c9State, loadPeers, zeroState]
  · norm_num [windowStep, windowPre, preInact1, preInact2, preMas, tryOps, branchOps, tailOps, runOps,
      scoreEval, restoreSnapshot, takeSnapshot, updF, weightsLinear, weightsPower,
      positiveMask, signQ, c9Hp, c9Inp, c9State, zeroState]


theorem windowStepGen_eq_of_empty {n P : ℕ} (hp : Hparams) (k : ℕ)
    (inp : WindowInput n P) (s : VState n P) (he : inp.evalPeers = []) :
    windowStepGen hp k inp s
      = { windowPre inp s with globalStep := (windowPre inp s).globalStep + 1 } := by
  unfold windowStepGen
  have hfe : (windowPre inp s).evalPeers.isEmpty = true := by
    show inp.evalPeers.isEmpty = true
    rw [he]
    rfl
  simp [hfe]

theorem maxQ_zero_nonneg (x : ℚ) : 0 ≤ maxQ x 0 := by
  unfold maxQ
  split
  · exact le_refl 0
  · exact le_of_not_lt (by assumption)

theorem windowPre_mas_nonneg {n P : ℕ} (inp : WindowInput n P) (s : VState n P)
    (h : ∀ u, 0 ≤ s.movingAvgScores u) :
    ∀ u, 0 ≤ (windowPre inp s).movingAvgScores u := by
  intro u
  show 0 ≤ preMas inp s u
  unfold preMas
  split
  · exact mul_nonneg (h u) (by norm_num)
  · exact h u

theorem tryOps_mem_mas_nonneg {n P : ℕ} (hp : Hparams) (sp : Fin P → ℚ)
    (inp : WindowInput n P) :
    ∀ f ∈ tryOps hp sp inp, ∀ t : VState n P,
      (∀ u, 0 ≤ t.movingAvgScores u) → ∀ u, 0 ≤ (f t).movingAvgScores u := by
  intro f hf t ht u
  rw [tryOps, List.mem_append] at hf
  rcases hf with hf | hf
  · cases hpay : inp.evalPayload with
    | some e =>
      rw [branchOps] at hf
      rw [hpay] at hf
      simp only [List.mem_cons, List.not_mem_nil, or_false] at hf
      rcases hf with rfl | rfl | rfl | rfl | rfl | rfl | rfl
      · exact ht u
      · exact ht u
      · exact ht u
      · exact ht u
      · exact ht u
      · show 0 ≤ (scoreEval hp inp.evalChoice e t).movingAvgScores u
        simp only [scoreEval, updF]
        split
        · exact maxQ_zero_nonneg _
        · exact ht u
      · exact ht u
    | none =>
      rw [branchOps] at hf
      rw [hpay] at hf
      simp only [List.mem_cons, List.not_mem_nil, or_false] at hf
      rcases hf with rfl | rfl
      · show 0 ≤ updF t.movingAvgScores inp.evalChoice
            (t.movingAvgScores inp.evalChoice * (1 / 2)) u
        simp only [updF]
        split
        · exact mul_nonneg (ht _) (by norm_num)
        · exact ht u
      · exact ht u
  · simp only [tailOps, List.mem_cons, List.not_mem_nil, or_false] at hf
    rcases hf with rfl | rfl | rfl | rfl | rfl | rfl
    · show 0 ≤ (if t.globalStep % hp.checkpoint_frequency = 0 then
          { t with checkpoints := t.checkpoints + 1 } else t).movingAvgScores u
      split
      · exact ht u
      · exact ht u
    · exact ht u
    · cases inp.gather with
      | some g => exact ht u
      | none => exact ht u
    · exact ht u
    · exact ht u
    · exact ht u

theorem runOps_mas_nonneg {n P : ℕ} (l : List (VState n P → VState n P))
    (hl : ∀ f ∈ l, ∀ t : VState n P,
      (∀ u, 0 ≤ t.movingAvgScores u) → ∀ u, 0 ≤ (f t).movingAvgScores u) :
    ∀ t : VState n P, (∀ u, 0 ≤ t.movingAvgScores u) →
      ∀ u, 0 ≤ (runOps l t).movingAvgScores u := by
  induction l with
  | nil => intro t ht u; exact ht u
  | cons f fs ih =>
    intro t ht u
    exact ih (fun g hg => hl g (List.mem_cons_of_mem f hg))
      (f t) (hl f (List.mem_cons_self f fs) t ht) u

/-- Claim C5 (confirmed) — non-negativity of `moving_avg_scores` is an
invariant of the whole engine: the initial score vector is all zeros, and
one window iteration (in fact any exception-truncated prefix of one, so
every individual update — the clamped EMA of a successful evaluation, the
missing-submission halving, the inactivity decay — is covered) maps a
non-negative score vector to a non-negative score vector. -/
theorem C5_moving_avg_scores_nonneg {n P : ℕ} (hp : Hparams) (k : ℕ)
    (inp : WindowInput n P) (s : VState n P)
    (halpha : 0 ≤ hp.ma_alpha ∧ hp.ma_alpha ≤ 1)
    (h : ∀ u, 0 ≤ s.movingAvgScores u) :
    (∀ u, 0 ≤ (windowStepGen hp k inp s).movingAvgScores u) ∧
    (∀ u, 0 ≤ (windowStep hp inp s).movingAvgScores u) ∧
    (∀ u, 0 ≤ initialScores n u) := by
  have hpre := windowPre_mas_nonneg inp s h
  refine ⟨?_, ?_, fun u => le_refl 0⟩
  · by_cases he : inp.evalPeers = []
    · rw [windowStepGen_eq_of_empty hp k inp s he]
      exact hpre
    · rw [windowStepGen_eq_of_ne hp k inp s he]
      intro u
      show 0 ≤ (runOps ((tryOps hp (windowPre inp s).params inp).take k)
        (windowPre inp s)).movingAvgScores u
      exact runOps_mas_nonneg _
        (fun f hf => tryOps_mem_mas_nonneg hp _ inp f (List.take_subset k _ hf))
        _ hpre u
  · by_cases he : inp.evalPeers = []
    · rw [windowStep_eq_of_empty hp inp s he]
      exact hpre
    · rw [windowStep_eq_of_ne hp inp s he]
      intro u
      show 0 ≤ (runOps (tryOps hp (windowPre inp s).params inp)
        (windowPre inp s)).movingAvgScores u
      exact runOps_mas_nonneg _ (tryOps_mem_mas_nonneg hp _ inp) _ hpre u

/-- Witness for C5: the all-zero one-peer state stays non-negative
through the concrete C1-style window truncated after 3 operations. -/
theorem C5_nonneg_witness :
    0 ≤ (windowStepGen c1Hp 3 c1Inp (zeroState 1 1)).movingAvgScores 0 :=
  (C5_moving_avg_scores_nonneg c1Hp 3 c1Inp (zeroState 1 1)
    (by norm_num [c1Hp]) (fun u => le_refl 0)).1 0

/-- Claim C8 (confirmed) — when the selected eval peer's payload is
absent, its `moving_avg_scores` entry is multiplied by exactly `1/2`
(untouched by the inactivity phase, since the peer is in the eval set),
the peer is still added to `evaluated_uids`, a previously positive score
keeps the peer inside the positive mask used by weight normalization, and
the weight vector recomputed in this branch is the power normalization of
the updated scores. -/
theorem C8_missing_submission_halving {n P : ℕ} (hp : Hparams)
    (inp : WindowInput n P) (s : VState n P)
    (hchoice : inp.evalChoice ∈ inp.evalPeers)
    (hpay : inp.evalPayload = none) :
    (windowStep hp inp s).movingAvgScores inp.evalChoice
        = s.movingAvgScores inp.evalChoice * (1 / 2) ∧
    inp.evalChoice ∈ (windowStep hp inp s).evaluatedUids ∧
    (0 < s.movingAvgScores inp.evalChoice →
      inp.evalChoice ∈ positiveMask (windowStep hp inp s).movingAvgScores
        (windowStep hp inp s).evaluatedUids) ∧
    (windowStep hp inp s).weights
      = weightsPower (windowStep hp inp s).movingAvgScores
          (windowStep hp inp s).evaluatedUids hp.power_normalisation := by
  have hne : inp.evalPeers ≠ [] := List.ne_nil_of_mem hchoice
  have hmas1 : (windowPre inp s).movingAvgScores inp.evalChoice
      = s.movingAvgScores inp.evalChoice := by
    show preMas inp s inp.evalChoice = s.movingAvgScores inp.evalChoice
    unfold preMas
    rw [if_neg]
    intro hcon
    exact hcon.2 hchoice
  rw [windowStep_eq_of_ne hp inp s hne]
  unfold tryOps
  rw [runOps_append]
  have hbm : (runOps (branchOps hp (windowPre inp s).params inp)
        (windowPre inp s)).movingAvgScores
      = updF (windowPre inp s).movingAvgScores inp.evalChoice
          ((windowPre inp s).movingAvgScores inp.evalChoice * (1 / 2)) := by
    simp [branchOps, hpay, runOps]
  have hbe : (runOps (branchOps hp (windowPre inp s).params inp)
        (windowPre inp s)).evaluatedUids
      = insert inp.evalChoice (windowPre inp s).evaluatedUids := by
    simp [branchOps, hpay, runOps]
  have hbw : (runOps (branchOps hp (windowPre inp s).params inp)
        (windowPre inp s)).weights
      = weightsPower
          (updF (windowPre inp s).movingAvgScores inp.evalChoice
            ((windowPre inp s).movingAvgScores inp.evalChoice * (1 / 2)))
          (insert inp.evalChoice (windowPre inp s).evaluatedUids)
          hp.power_normalisation := by
    simp [branchOps, hpay, runOps]
  have hrm : (restoreSnapshot (takeSnapshot (windowPre inp s))
        (runOps (tailOps hp inp)
          (runOps (branchOps hp (windowPre inp s).params inp)
            (windowPre inp s)))).movingAvgScores
      = updF (windowPre inp s).movingAvgScores inp.evalChoice
          ((windowPre inp s).movingAvgScores inp.evalChoice * (1 / 2)) := by
    show (runOps (tailOps hp inp) _).movingAvgScores = _
    rw [(runOps_tailOps_proj hp inp _).1, hbm]
  have hre : (restoreSnapshot (takeSnapshot (windowPre inp s))
        (runOps (tailOps hp inp)
          (runOps (branchOps hp (windowPre inp s).params inp)
            (windowPre inp s)))).evaluatedUids
      = insert inp.evalChoice (windowPre inp s).evaluatedUids := by
    show (runOps (tailOps hp inp) _).evaluatedUids = _
    rw [(runOps_tailOps_proj hp inp _).2.2.1, hbe]
  have hrw : (restoreSnapshot (takeSnapshot (windowPre inp s))
        (runOps (tailOps hp inp)
          (runOps (branchOps hp (windowPre inp s).params inp)
            (windowPre inp s)))).weights
      = weightsPower
          (updF (windowPre inp s).movingAvgScores inp.evalChoice
            ((windowPre inp s).movingAvgScores inp.evalChoice * (1 / 2)))
          (insert inp.evalChoice (windowPre inp s).evaluatedUids)
          hp.power_normalisation := by
    show (runOps (tailOps hp inp) _).weights = _
    rw [(runOps_tailOps_proj hp inp _).2.2.2.1, hbw]
  have hval : updF (windowPre inp s).movingAvgScores inp.evalChoice
      ((windowPre inp s).movingAvgScores inp.evalChoice * (1 / 2)) inp.evalChoice
      = s.movingAvgScores inp.evalChoice * (1 / 2) := by
    simp [updF, hmas1]
  refine ⟨?_, ?_, ?_, ?_⟩
  · rw [hrm, hval]
  · rw [hre]
    exact Finset.mem_insert_self _ _
  · intro hpos
    rw [hrm, hre]
    unfold positiveMask
    rw [Finset.mem_filter]
    refine ⟨Finset.mem_univ _, Finset.mem_insert_self _ _, ?_⟩
    rw [hval]
    exact mul_pos hpos (by norm_num)
  · rw [hrw, hrm, hre]


theorem weightsLinear_apply {n : ℕ} (mas : Fin n → ℚ) (ev : Finset (Fin n))
    (i : Fin n) :
    weightsLinear mas ev i
      = if i ∈ positiveMask mas ev then
          mas i / ∑ j ∈ positiveMask mas ev, mas j
        else 0 := rfl

theorem weightsPower_apply {n : ℕ} (mas : Fin n → ℚ) (ev : Finset (Fin n))
    (pw : ℕ) (i : Fin n) :
    weightsPower mas ev pw i
      = if i ∈ positiveMask mas ev then
          (if normEpsilon < ∑ j ∈ positiveMask mas ev, mas j ^ pw then
             mas i ^ pw / ∑ j ∈ positiveMask mas ev, mas j ^ pw
           else 0)
        else 0 := rfl

/-- Claim C3 (corrected) — the weight vector recomputed by a window is
the power normalization of the masked scores only in the
missing-submission branch; the successful-evaluation branch uses plain
proportional normalization `score / Σ masked scores` with no power and no
epsilon guard.  In both formulas peers outside the mask get weight `0`,
masked peers get the respective normalized value, and the power variant
falls back to all-zero when the powered sum is at most `1e-8`. -/
theorem C3_weight_normalization_per_branch {n P : ℕ} (hp : Hparams)
    (inp : WindowInput n P) (s : VState n P) (hne : inp.evalPeers ≠ []) :
    ((inp.evalPayload.isSome →
       (windowStep hp inp s).weights
         = weightsLinear (windowStep hp inp s).movingAvgScores
             (windowStep hp inp s).evaluatedUids) ∧
     (inp.evalPayload = none →
       (windowStep hp inp s).weights
         = weightsPower (windowStep hp inp s).movingAvgScores
             (windowStep hp inp s).evaluatedUids hp.power_normalisation)) ∧
    (∀ (mas : Fin n → ℚ) (ev : Finset (Fin n)) (i : Fin n),
       (i ∉ positiveMask mas ev →
          weightsLinear mas ev i = 0 ∧
          weightsPower mas ev hp.power_normalisation i = 0) ∧
       (i ∈ positiveMask mas ev →
          weightsLinear mas ev i = mas i / ∑ j ∈ positiveMask mas ev, mas j ∧
          weightsPower mas ev hp.power_normalisation i =
            (if normEpsilon <
                ∑ j ∈ positiveMask mas ev, mas j ^ hp.power_normalisation then
               mas i ^ hp.power_normalisation
                 / ∑ j ∈ positiveMask mas ev, mas j ^ hp.power_normalisation
             else 0))) := by
  constructor
  · rw [windowStep_eq_of_ne hp inp s hne]
    unfold tryOps
    rw [runOps_append]
    constructor
    · intro hsome
      rcases Option.isSome_iff_exists.mp hsome with ⟨e, hpay⟩
      have hb : (runOps (branchOps hp (windowPre inp s).params inp)
            (windowPre inp s)).weights
          = weightsLinear
              (runOps (branchOps hp (windowPre inp s).params inp)
                (windowPre inp s)).movingAvgScores
              (runOps (branchOps hp (windowPre inp s).params inp)
                (windowPre inp s)).evaluatedUids := by
        simp [branchOps, hpay, runOps, scoreEval]
      show (runOps (tailOps hp inp) _).weights
          = weightsLinear (runOps (tailOps hp inp) _).movingAvgScores
              (runOps (tailOps hp inp) _).evaluatedUids
      rw [(runOps_tailOps_proj hp inp _).2.2.2.1,
        (runOps_tailOps_proj hp inp _).1,
        (runOps_tailOps_proj hp inp _).2.2.1]
      exact hb
    · intro hpay
      have hb : (runOps (branchOps hp (windowPre inp s).params inp)
            (windowPre inp s)).weights
          = weightsPower
              (runOps (branchOps hp (windowPre inp s).params inp)
                (windowPre inp s)).movingAvgScores
              (runOps (branchOps hp (windowPre inp s).params inp)
                (windowPre inp s)).evaluatedUids
              hp.power_normalisation := by
        simp [branchOps, hpay, runOps]
      show (runOps (tailOps hp inp) _).weights
          = weightsPower (runOps (tailOps hp inp) _).movingAvgScores
              (runOps (tailOps hp inp) _).evaluatedUids hp.power_normalisation
      rw [(runOps_tailOps_proj hp inp _).2.2.2.1,
        (runOps_tailOps_proj hp inp _).1,
        (runOps_tailOps_proj hp inp _).2.2.1]
      exact hb
  · intro mas ev i
    constructor
    · intro hni
      rw [weightsLinear_apply, weightsPower_apply, if_neg hni, if_neg hni]
      exact ⟨rfl, rfl⟩
    · intro hi
      rw [weightsLinear_apply, weightsPower_apply, if_pos hi, if_pos hi]
      exact ⟨rfl, rfl⟩

/-- Witness for C3: the missing-submission window of the C8-style
fixture recomputes its weight vector by power normalization. -/
theorem C3_weight_normalization_witness :
    (windowStep c9Hp c9Inp c9State).weights
      = weightsPower (windowStep c9Hp c9Inp c9State).movingAvgScores
          (windowStep c9Hp c9Inp c9State).evaluatedUids
          c9Hp.power_normalisation :=
  ((C3_weight_normalization_per_branch c9Hp c9Inp c9State
      (by simp [c9Inp])).1).2 rfl


/-- Counterexample for C3 as stated: in the successful-evaluation
recomputation of the concrete C3 window (post-update scores 1 and 2, both
peers masked, configured power 2) peer 0 receives the linear weight `1/3`,
not the power-normalized weight `1/5 = 1² / (1² + 2²)` the claim
prescribes for every recomputation. -/
theorem C3_success_branch_counterexample :
    (windowStep c3Hp c3Inp c3State).weights 0 = 1 / 3 ∧
    (windowStep c3Hp c3Inp c3State).movingAvgScores 0 ^ c3Hp.power_normalisation
        / (∑ j ∈ positiveMask (windowStep c3Hp c3Inp c3State).movingAvgScores
              (windowStep c3Hp c3Inp c3State).evaluatedUids,
            (windowStep c3Hp c3Inp c3State).movingAvgScores j
              ^ c3Hp.power_normalisation) = 1 / 5 ∧
    (windowStep c3Hp c3Inp c3State).weights 0
      ≠ (windowStep c3Hp c3Inp c3State).movingAvgScores 0 ^ c3Hp.power_normalisation
          / ∑ j ∈ positiveMask (windowStep c3Hp c3Inp c3State).movingAvgScores
              (windowStep c3Hp c3Inp c3State).evaluatedUids,
            (windowStep c3Hp c3Inp c3State).movingAvgScores j
              ^ c3Hp.power_normalisation := by
  refine ⟨?_, ?_, ?_⟩ <;>
    norm_num [windowStep, windowPre, preInact1, preInact2, preMas, tryOps, branchOps,
      tailOps, runOps, scoreEval, restoreSnapshot, takeSnapshot, rawScore, improvement,
      binaryIndicator, maxQ, updF, weightsLinear, weightsPower, positiveMask, signQ,
      normEpsilon, c3Hp, c3Inp, c3State, zeroState, Finset.sum_filter, Fin.sum_univ_two,
      Finset.mem_filter, Finset.mem_insert, Finset.mem_singleton]

theorem normEpsilon_pos : 0 < normEpsilon := by norm_num [normEpsilon]

/-- Claim C4 (corrected) — whenever at least one evaluated peer has a
positive score, the linear recomputation (successful-evaluation branch)
sums to exactly 1, and the power recomputation (missing-submission
branch) sums to exactly 1 provided its powered sum exceeds the `1e-8`
epsilon — but falls back to the all-zero vector when the powered sum is
at most the epsilon, even though a positive-score evaluated peer exists;
with no positive-score evaluated peer both recomputations are all-zero. -/
theorem C4_weight_sum_invariant {n : ℕ} (mas : Fin n → ℚ) (ev : Finset (Fin n))
    (pw : ℕ) :
    ((positiveMask mas ev).Nonempty →
       (∑ i, weightsLinear mas ev i) = 1 ∧
       (normEpsilon < ∑ j ∈ positiveMask mas ev, mas j ^ pw →
          (∑ i, weightsPower mas ev pw i) = 1)) ∧
    (positiveMask mas ev = ∅ →
       (∀ i, weightsLinear mas ev i = 0) ∧ (∀ i, weightsPower mas ev pw i = 0)) ∧
    ((∑ j ∈ positiveMask mas ev, mas j ^ pw) ≤ normEpsilon →
       ∀ i, weightsPower mas ev pw i = 0) := by
  refine ⟨?_, ?_, ?_⟩
  · intro hmask
    have hT : 0 < ∑ j ∈ positiveMask mas ev, mas j :=
      Finset.sum_pos (fun i hi => (Finset.mem_filter.mp hi).2.2) hmask
    constructor
    · calc (∑ i, weightsLinear mas ev i)
          = ∑ i, if i ∈ positiveMask mas ev then
              mas i / ∑ j ∈ positiveMask mas ev, mas j else 0 := by
            simp only [weightsLinear_apply]
        _ = ∑ i ∈ positiveMask mas ev,
              mas i / ∑ j ∈ positiveMask mas ev, mas j := by
            rw [Finset.sum_ite_mem, Finset.univ_inter]
        _ = (∑ i ∈ positiveMask mas ev, mas i)
              / ∑ j ∈ positiveMask mas ev, mas j := by
            rw [Finset.sum_div]
        _ = 1 := div_self hT.ne'
    · intro hS
      have hSne : (∑ j ∈ positiveMask mas ev, mas j ^ pw) ≠ 0 :=
        (lt_trans normEpsilon_pos hS).ne'
      calc (∑ i, weightsPower mas ev pw i)
          = ∑ i, if i ∈ positiveMask mas ev then
              mas i ^ pw / ∑ j ∈ positiveMask mas ev, mas j ^ pw else 0 := by
            simp only [weightsPower_apply, if_pos hS]
        _ = ∑ i ∈ positiveMask mas ev,
              mas i ^ pw / ∑ j ∈ positiveMask mas ev, mas j ^ pw := by
            rw [Finset.sum_ite_mem, Finset.univ_inter]
        _ = (∑ i ∈ positiveMask mas ev, mas i ^ pw)
              / ∑ j ∈ positiveMask mas ev, mas j ^ pw := by
            rw [Finset.sum_div]
        _ = 1 := div_self hSne
  · intro hemp
    constructor
    · intro i
      rw [weightsLinear_apply, hemp]
      exact if_neg (Finset.not_mem_empty i)
    · intro i
      rw [weightsPower_apply, hemp]
      exact if_neg (Finset.not_mem_empty i)
  · intro hle i
    rw [weightsPower_apply, if_neg (not_lt.mpr hle), ite_self]

/-- Witness for C4: two evaluated peers with scores 3 and 1 give linear
weights summing to exactly 1, while two evaluated peers both at `1e-5`
give an all-zero power-normalized vector (powered sum `2e-10 ≤ 1e-8`). -/
theorem C4_weight_sum_witness :
    (∑ i, weightsLinear c4mas c4ev i) = 1 ∧
    (∀ i, weightsPower c4masSmall c4ev 2 i = 0) :=
  ⟨((C4_weight_sum_invariant c4mas c4ev 2).1
      ⟨0, by norm_num [positiveMask, c4mas, c4ev, Finset.mem_filter]⟩).1,
   (C4_weight_sum_invariant c4masSmall c4ev 2).2.2
      (by
        have h2 : (∑ j ∈ positiveMask c4masSmall c4ev, c4masSmall j ^ 2)
            = ∑ j : Fin 2,
                (if j ∈ positiveMask c4masSmall c4ev then c4masSmall j ^ 2 else 0) := by
          rw [Finset.sum_ite_mem, Finset.univ_inter]
        rw [h2]
        norm_num [Fin.sum_univ_two, positiveMask, Finset.mem_filter, c4masSmall,
          c4ev, normEpsilon, Finset.mem_insert, Finset.mem_singleton])⟩

/-- Counterexample for C4 as stated: after the concrete C4 window
(missing submission for peer 1, evaluated peer 0 still holding the
positive score `1e-5`), the recomputed weight vector is all zero — its sum
is 0, not within `1e-6` of 1 — because the powered sum `1e-10` falls under
the `1e-8` epsilon guard of `min_power_normalization`. -/
theorem C4_weight_sum_counterexample :
    (0 : Fin 2) ∈ (windowStep c3Hp c4Inp c4State).evaluatedUids ∧
    0 < (windowStep c3Hp c4Inp c4State).movingAvgScores 0 ∧
    (∑ i, (windowStep c3Hp c4Inp c4State).weights i) = 0 ∧
    ¬ (|(∑ i, (windowStep c3Hp c4Inp c4State).weights i) - 1| ≤ 1 / 10 ^ 6) := by
  refine ⟨?_, ?_, ?_, ?_⟩ <;>
    norm_num [windowStep, windowPre, preInact1, preInact2, preMas, tryOps, branchOps,
      tailOps, runOps, scoreEval, restoreSnapshot, takeSnapshot, rawScore, improvement,
      binaryIndicator, maxQ, updF, weightsLinear, weightsPower, positiveMask, signQ,
      normEpsilon, c3Hp, c4Inp, c4State, zeroState, Finset.sum_filter, Fin.sum_univ_two,
      Finset.mem_filter, Finset.mem_insert, Finset.mem_singleton]


theorem preInact1_of_tracked {n P : ℕ} (inp : WindowInput n P) (s : VState n P)
    {u : Fin n} (htr : s.inactiveScores u ≠ none) :
    preInact1 inp s u ≠ none := by
  unfold preInact1
  split
  · simp
  · exact htr

theorem preInact1_of_newly {n P : ℕ} (inp : WindowInput n P) (s : VState n P)
    {u : Fin n} (hnew : u ∈ inp.newlyInactive) :
    preInact1 inp s u ≠ none := by
  unfold preInact1
  split
  · simp
  · rename_i h
    intro heq
    exact h ⟨hnew, heq⟩

theorem preMas_decay {n P : ℕ} (inp : WindowInput n P) (s : VState n P)
    {u : Fin n} (habs : u ∉ inp.evalPeers) (htr : preInact1 inp s u ≠ none) :
    preMas inp s u = s.movingAvgScores u * (3 / 4) := by
  unfold preMas
  rw [if_pos ⟨Option.isSome_iff_ne_none.mpr htr, habs⟩]

theorem preInact2_tracked {n P : ℕ} (inp : WindowInput n P) (s : VState n P)
    {u : Fin n} (habs : u ∉ inp.evalPeers) (htr : preInact1 inp s u ≠ none) :
    preInact2 inp s u ≠ none := by
  unfold preInact2
  rw [if_neg (fun hc => habs hc.2)]
  exact htr

theorem windowStep_decay {n P : ℕ} (hp : Hparams) (inp : WindowInput n P)
    (s : VState n P) {u : Fin n} (habs : u ∉ inp.evalPeers)
    (hcho : inp.evalChoice ≠ u) (htr : preInact1 inp s u ≠ none) :
    (windowStep hp inp s).movingAvgScores u = s.movingAvgScores u * (3 / 4) ∧
    (windowStep hp inp s).inactiveScores u ≠ none := by
  obtain ⟨hm, hi⟩ := windowStep_keep_of_choice_ne hp inp hcho s
  constructor
  · rw [hm]
    exact preMas_decay inp s habs htr
  · rw [hi]
    exact preInact2_tracked inp s habs htr

theorem windowSteps_decay_chain {n P : ℕ} (hp : Hparams) (u : Fin n) :
    ∀ (inps : List (WindowInput n P)) (s : VState n P),
      (∀ inp ∈ inps, u ∉ inp.evalPeers ∧ inp.evalChoice ≠ u) →
      s.inactiveScores u ≠ none →
      (windowSteps hp inps s).movingAvgScores u
          = s.movingAvgScores u * (3 / 4) ^ inps.length ∧
      (windowSteps hp inps s).inactiveScores u ≠ none := by
  intro inps
  induction inps with
  | nil =>
    intro s h htr
    exact ⟨by simp [windowSteps], htr⟩
  | cons i l ih =>
    intro s h htr
    have hi := h i (List.mem_cons_self i l)
    have hstep := windowStep_decay hp i s hi.1 hi.2 (preInact1_of_tracked i s htr)
    have hcons : windowSteps hp (i :: l) s = windowSteps hp l (windowStep hp i s) := rfl
    have hrest := ih (windowStep hp i s)
      (fun j hj => h j (List.mem_cons_of_mem i hj)) hstep.2
    constructor
    · rw [hcons, hrest.1, hstep.1, List.length_cons, pow_succ]
      ring
    · rw [hcons]
      exact hrest.2

/-- Claim C7 (confirmed) — a peer that leaves the eval set with score
`s₀` (reported newly inactive, not yet tracked) and stays absent and
unchosen for `k = rest.length + 1` consecutive processed windows ends
with score exactly `s₀ · (3/4)^k` and is still tracked as inactive; and
in the first window in which the peer is back in the eval set, the
pre-evaluation phase removes it from inactivity tracking and leaves its
score untouched. -/
theorem C7_inactivity_geometric_decay {n P : ℕ} (hp : Hparams) (u : Fin n)
    (inp0 : WindowInput n P) (rest : List (WindowInput n P)) (s : VState n P)
    (habs : ∀ inp ∈ inp0 :: rest, u ∉ inp.evalPeers ∧ inp.evalChoice ≠ u)
    (hnew : u ∈ inp0.newlyInactive) (hun : s.inactiveScores u = none) :
    ((windowSteps hp (inp0 :: rest) s).movingAvgScores u
        = s.movingAvgScores u * (3 / 4) ^ (rest.length + 1)) ∧
    (windowSteps hp (inp0 :: rest) s).inactiveScores u ≠ none ∧
    (∀ (inpR : WindowInput n P) (t : VState n P), u ∈ inpR.evalPeers →
        (windowPre inpR t).inactiveScores u = none ∧
        (windowPre inpR t).movingAvgScores u = t.movingAvgScores u) := by
  have h0 := habs inp0 (List.mem_cons_self inp0 rest)
  have hstep := windowStep_decay hp inp0 s h0.1 h0.2 (preInact1_of_newly inp0 s hnew)
  have hcons : windowSteps hp (inp0 :: rest) s
      = windowSteps hp rest (windowStep hp inp0 s) := rfl
  have hrest := windowSteps_decay_chain hp u rest (windowStep hp inp0 s)
    (fun j hj => habs j (List.mem_cons_of_mem inp0 hj)) hstep.2
  refine ⟨?_, ?_, ?_⟩
  · rw [hcons, hrest.1, hstep.1, pow_succ]
    ring
  · rw [hcons]
    exact hrest.2
  · intro inpR t hin
    constructor
    · show preInact2 inpR t u = none
      unfold preInact2
      by_cases hs : (preInact1 inpR t u).isSome
      · rw [if_pos ⟨hs, hin⟩]
      · rw [if_neg (fun hc => hs hc.1)]
        exact Option.not_isSome_iff_eq_none.mp hs
    · show preMas inpR t u = t.movingAvgScores u
      unfold preMas
      rw [if_neg (fun hc => hc.2 hin)]

/-- Witness for C7: peer 1 leaves with score 4 and stays absent for two
windows, ending at `4 · (3/4)² = 9/4`. -/
theorem C7_inactivity_decay_witness :
    (windowSteps c7Hp [c7W1, c7W2] c7State).movingAvgScores 1
      = c7State.movingAvgScores 1 * (3 / 4) ^ ([c7W2].length + 1) :=
  (C7_inactivity_geometric_decay c7Hp 1 c7W1 [c7W2] c7State
    (by
      intro inp hi
      simp only [List.mem_cons, List.not_mem_nil, or_false] at hi
      rcases hi with rfl | rfl
      · exact ⟨by decide, by decide⟩
      · exact ⟨by decide, by decide⟩)
    (by decide) rfl).1


/-- Witness for C8: peer 1's score `0.8` becomes `0.8 · 1/2 = 0.4`, the
peer stays in the evaluated set and inside the positive mask. -/
theorem C8_missing_submission_witness :
    (windowStep c9Hp c8Inp c8State).movingAvgScores c8Inp.evalChoice
        = c8State.movingAvgScores c8Inp.evalChoice * (1 / 2) ∧
    c8Inp.evalChoice ∈ (windowStep c9Hp c8Inp c8State).evaluatedUids ∧
    c8Inp.evalChoice ∈ positiveMask (windowStep c9Hp c8Inp c8State).movingAvgScores
      (windowStep c9Hp c8Inp c8State).evaluatedUids :=
  have h := C8_missing_submission_halving c9Hp c8Inp c8State (by decide) rfl
  ⟨h.1, h.2.1, h.2.2.1 (by norm_num [c8Inp, c8State, zeroState])⟩


/-- Witness for C9's amended statement at validator uid 0: startup
inclusion through `loadPeers`, verbatim adoption of the refreshed list. -/
theorem C9_self_inclusion_witness :
    (0 : Fin 2) ∈ loadPeers none [1] (0 : Fin 2) ∧
    (windowStep c9Hp c9Inp c9State).peers = c9Inp.peers :=
  ⟨(@C9_self_inclusion_startup_only 2 1 (0 : Fin 2)).1 none [1],
   (@C9_self_inclusion_startup_only 2 1 (0 : Fin 2)).2 c9Hp c9Inp c9State⟩

end Templar
